import Mathlib

/-!
Shallow embedding of the SILGen module slice (lib/SIL/SILGen/SILGen.cpp):
declaration references, the emitted-function cache, per-declaration emission
drivers, the fall-through epilogue of SILGenFunction, the bridging-function
resolver, and linkage computation. Each definition is translated from the
corresponding C++ function; emission is modelled as explicit state passing
over the module cache plus a trace of emitted functions, and assertion
failures / process aborts are modelled as Option.none.
-/

namespace SILGen

/-- Declaration contexts, innermost first: a chain of local (function-nested)
frames and nominal-type frames ending at a module; isClang marks a
ClangModule (checked by isa ClangModule in getConstantLinkage). -/
inductive DeclContext where
  | module (isClang : Bool)
  | localCtx (parent : DeclContext)
  | typeCtx (parent : DeclContext)
deriving DecidableEq

/-- DeclContext::isTypeContext, as used for the implicit-self slice in
SILGenModule::emitFunction. -/
def DeclContext.isTypeContext : DeclContext → Bool
  | .typeCtx _ => true
  | _ => false

/-- The shape of a value declaration, as discriminated by the isa / dyn_cast
checks in SILGen.cpp (ConstructorDecl, SubscriptDecl, VarDecl with
isProperty, FuncDecl with its accessor / instance-member flags). -/
inductive DeclKind where
  | constructor
  | subscriptDecl
  | varDecl (isProperty : Bool)
  | funcDecl (isGetterOrSetter : Bool) (isInstanceMember : Bool)
  | otherDecl
deriving DecidableEq

/-- The attributes of a ValueDecl consulted by this translation unit. The
natural uncurry level stands for SILDeclRef::ConstructAtNaturalUncurryLevel,
which is computed from the declaration type outside this file. -/
structure ValueDeclInfo where
  id : Nat
  kind : DeclKind
  context : DeclContext
  naturalUncurryLevel : Nat
deriving DecidableEq

/-- SILDeclRef::Loc: a PointerUnion of a ValueDecl and an anonymous
capturing expression (closure). -/
inductive DeclLoc where
  | valueDecl (d : ValueDeclInfo)
  | anonExpr (id : Nat)
deriving DecidableEq

/-- The SILDeclRef kind tag (plain function entry point, accessor halves,
constructor initializer half, destroyer, default-argument generator with its
flattened parameter index). -/
inductive SILDeclRefKind where
  | func
  | getter
  | setter
  | initializer
  | destroyer
  | defaultArgGenerator (index : Nat)
deriving DecidableEq

/-- SILDeclRef: the unique cache key for emitted functions. Two references
are equal iff all fields match. -/
structure SILDeclRef where
  loc : DeclLoc
  kind : SILDeclRefKind
  uncurryLevel : Nat
  isObjC : Bool
deriving DecidableEq

/-- SILDeclRef::atUncurryLevel: the same reference at a lower uncurry
level, used while emitting curry thunks. -/
def SILDeclRef.atUncurryLevel (c : SILDeclRef) (l : Nat) : SILDeclRef :=
  { c with uncurryLevel := l }

/-- SILDeclRef::hasDecl: whether the Loc union holds a ValueDecl. -/
def SILDeclRef.hasDecl (c : SILDeclRef) : Bool :=
  match c.loc with
  | .valueDecl _ => true
  | .anonExpr _ => false

/-- SILLinkage as used here: Internal, External, ClangThunk. -/
inductive SILLinkage where
  | internal
  | external
  | clangThunk
deriving DecidableEq

/-- A SILFunction as far as this translation unit observes it: an identity
(allocation order), its linkage, and whether a body has been emitted into it
(hasBody = false corresponds to SILFunction::empty() /
isExternalDeclaration() being true). -/
structure SILFunction where
  id : Nat
  linkage : SILLinkage
  hasBody : Bool
deriving DecidableEq

/-- Association-list lookup in the emittedFunctions cache. -/
def lookupFn (cache : List (SILDeclRef × SILFunction)) (c : SILDeclRef) :
    Option SILFunction :=
  match cache with
  | [] => none
  | (k, f) :: rest => if k = c then some f else lookupFn rest c

/-- The inner while loop of SILGenModule::getConstantLinkage: walk the
declaration contexts outward; a local context yields Internal, any other
non-module context is skipped, and the walk stops at the module context
where the ClangModule test is applied to the declaration. -/
def linkageWalk (k : DeclKind) : DeclContext → SILLinkage
  | .localCtx _ => .internal
  | .typeCtx p => linkageWalk k p
  | .module isClang =>
    if isClang &&
        (match k with
         | .constructor => true
         | .subscriptDecl => true
         | .varDecl isProperty => isProperty
         | _ => false) then
      .clangThunk
    else
      .external

/-- SILGenModule::getConstantLinkage. -/
def getConstantLinkage (c : SILDeclRef) : SILLinkage :=
  match c.loc with
  | .anonExpr _ => .internal
  | .valueDecl d => linkageWalk d.kind d.context

/-- The mutable SILGenModule state this slice manipulates: the
emittedFunctions cache together with an allocation counter giving each newly
created SILFunction a distinct identity. -/
structure SGMState where
  cache : List (SILDeclRef × SILFunction)
  nextId : Nat
deriving DecidableEq

/-- SILGenModule::getFunction: return the cached function for the constant
if present; otherwise create a new bodiless SILFunction with the computed
linkage, register it in the cache, and return it. -/
def getFunction (s : SGMState) (c : SILDeclRef) : SILFunction × SGMState :=
  match lookupFn s.cache c with
  | some f => (f, s)
  | none =>
    let f : SILFunction := ⟨s.nextId, getConstantLinkage c, false⟩
    (f, ⟨(c, f) :: s.cache, s.nextId + 1⟩)

/-- SILGenModule::hasFunction: pure membership query on the cache. -/
def hasFunction (s : SGMState) (c : SILDeclRef) : Bool :=
  (lookupFn s.cache c).isSome

/-- Record that a body has been emitted into the cached function for the
constant (the effect, on the cache, of running a SILGenFunction over the
function returned by preEmitFunction). -/
def markBody (s : SGMState) (c : SILDeclRef) : SGMState :=
  { s with
    cache := s.cache.map fun kv =>
      (kv.1, if kv.1 = c then { kv.2 with hasBody := true } else kv.2) }

/-- SILGenModule::preEmitFunction: fetch or create the function for the
constant and assert it is still bodiless; the assertion failure (already
emitted function) is modelled as none. -/
def preEmitFunction (s : SGMState) (c : SILDeclRef) : Option SGMState :=
  if ((getFunction s c).1).hasBody then none else some (getFunction s c).2

/-- One entry of the emission trace: a function emitted for a reference with
its hasVoidReturn flag, or a curry thunk from one entry point forwarding to
the next-higher one. -/
inductive Event where
  | emitted (ref : SILDeclRef) (hasVoidReturn : Bool)
  | thunk (entryPoint nextEntryPoint : SILDeclRef)
deriving DecidableEq

/-- Whether a trace entry is the emission of a default-argument generator. -/
def Event.isDefaultArgGen : Event → Bool
  | .emitted r _ =>
    match r.kind with
    | .defaultArgGenerator _ => true
    | _ => false
  | .thunk _ _ => false

/-- The common preEmitFunction / emit body / postEmitFunction protocol for a
single function: assert bodiless, emit the body (recording the
hasVoidReturn flag the SILGenFunction is constructed with), and mark the
function complete. postEmitFunction's assertion (a body was emitted) holds
by construction here. -/
def emitOneFunction (s : SGMState) (c : SILDeclRef) (hasVoidReturn : Bool) :
    Option (SGMState × Event) :=
  (preEmitFunction s c).map fun s1 => (markBody s1 c, .emitted c hasVoidReturn)

/-- The SILDeclRef for a foreign (ObjC) method thunk: the method's
reference constructed at its natural uncurry level with the isObjC flag
set. -/
def objcMethodThunkRef (method : ValueDeclInfo) : SILDeclRef :=
  ⟨.valueDecl method, .func, method.naturalUncurryLevel, true⟩

/-- SILGenModule::emitObjCMethodThunk: build the thunk reference, silently
skip if a function already exists for it, otherwise emit the forwarding
body (the SILGenFunction is constructed with hasVoidReturn = false). -/
def emitObjCMethodThunk (s : SGMState) (method : ValueDeclInfo) :
    Option (SGMState × List Event) :=
  let thunk := objcMethodThunkRef method
  if hasFunction s thunk then some (s, [])
  else
    match emitOneFunction s thunk false with
    | none => none
    | some (s1, ev) => some (s1, [ev])

/-!
## The SILGenFunction fall-through epilogue

SILGenFunction's destructor handles falling off the end of the function
body: nothing if the builder has no valid insertion point; otherwise an
implicit return of the empty tuple (after all pending cleanups) for a
void-returning function, and an unreachable terminator otherwise.
-/

/-- Instructions the epilogue path can append to the current block. -/
inductive SGFInstr where
  | emptyTuple
  | cleanupAction (id : Nat)
  | ret
  | unreachable
deriving DecidableEq

/-- The per-function emission state consulted by the SILGenFunction
destructor: builder insertion-point validity, the instructions of the
current block, the pending cleanup stack (head = most recently pushed), the
hasVoidReturn flag, and the optional epilog block. -/
structure SGFState where
  validInsertionPoint : Bool
  instrs : List SGFInstr
  cleanups : List Nat
  hasVoidReturn : Bool
  epilogBB : Option Nat
deriving DecidableEq

/-- CleanupManager::pushCleanup: record a pending cleanup on top of the
stack. -/
def pushCleanup (s : SGFState) (c : Nat) : SGFState :=
  { s with cleanups := c :: s.cleanups }

/-- Modelled from the spec: CleanupManager::emitReturnAndCleanups is not in
this translation unit; per the spec it pops the entire cleanup stack,
emitting each pending action in reverse (LIFO) order at the current
insertion point, while constructing the final return instruction, so the
cleanups run after the result value is materialized and before control
leaves the function. -/
def emitReturnAndCleanups (s : SGFState) : SGFState :=
  { s with
    instrs := s.instrs ++ s.cleanups.map SGFInstr.cleanupAction ++ [SGFInstr.ret],
    cleanups := [],
    validInsertionPoint := false }

/-- The SILGenFunction destructor: if the insertion point is invalid, done;
otherwise for hasVoidReturn assert the epilog block is gone (none models
the assertion failure), materialize the empty tuple and run
emitReturnAndCleanups; otherwise emit an unreachable terminator. -/
def sgfFinish (s : SGFState) : Option SGFState :=
  if !s.validInsertionPoint then
    some s
  else if s.hasVoidReturn then
    match s.epilogBB with
    | some _ => none
    | none =>
      some (emitReturnAndCleanups { s with instrs := s.instrs ++ [SGFInstr.emptyTuple] })
  else
    some { s with
      instrs := s.instrs ++ [SGFInstr.unreachable],
      validInsertionPoint := false }

/-- Claim C1: a function whose emission ends with a valid insertion point
receives, when hasVoidReturn is true, a synthesized return of the empty
tuple after all pending cleanups run in LIFO order (cleanups pushed in
order l are emitted in order l.reverse), and when hasVoidReturn is false an
unreachable terminator with no return synthesized. -/
theorem sgf_fallthrough_epilogue (s : SGFState) (l : List Nat) :
    ((l.foldl pushCleanup s).cleanups = l.reverse ++ s.cleanups)
    ∧ (s.validInsertionPoint = true → s.hasVoidReturn = true → s.epilogBB = none →
        ∃ s', sgfFinish s = some s'
          ∧ s'.instrs = s.instrs ++ [SGFInstr.emptyTuple]
              ++ s.cleanups.map SGFInstr.cleanupAction ++ [SGFInstr.ret])
    ∧ (s.validInsertionPoint = true → s.hasVoidReturn = false →
        ∃ s', sgfFinish s = some s'
          ∧ s'.instrs = s.instrs ++ [SGFInstr.unreachable]
          ∧ ∀ i ∈ s'.instrs.drop s.instrs.length, i ≠ SGFInstr.ret) := by
  refine ⟨?_, ?_, ?_⟩
  · induction l generalizing s with
    | nil => simp
    | cons a t ih =>
      simp only [List.foldl_cons, List.reverse_cons, List.append_assoc]
      rw [ih]
      simp [pushCleanup]
  · intro hv hr he
    refine ⟨emitReturnAndCleanups { s with instrs := s.instrs ++ [SGFInstr.emptyTuple] },
      ?_, ?_⟩
    · simp [sgfFinish, hv, hr, he]
    · simp [emitReturnAndCleanups]
  · intro hv hr
    refine ⟨{ s with instrs := s.instrs ++ [SGFInstr.unreachable], validInsertionPoint := false }, ?_, ?_, ?_⟩
    · simp [sgfFinish, hv, hr]
    · simp
    · intro i hi
      simp only [List.drop_left] at hi
      simp only [List.mem_singleton] at hi
      subst hi
      intro h
      exact SGFInstr.noConfusion h

/-- Witness for C1 at a concrete state: two cleanups pushed in order 1, 2
are emitted as 2 then 1 before the synthesized return. -/
theorem sgf_fallthrough_epilogue_witness :
    sgfFinish ([1, 2].foldl pushCleanup ⟨true, [], [], true, none⟩)
      = some ⟨false, [SGFInstr.emptyTuple, SGFInstr.cleanupAction 2,
          SGFInstr.cleanupAction 1, SGFInstr.ret], [], true, none⟩ := by
  have h := sgf_fallthrough_epilogue
    ([1, 2].foldl pushCleanup ⟨true, [], [], true, none⟩) []
  obtain ⟨s', hs', hinstr⟩ := h.2.1 rfl rfl rfl
  rw [hs']
  have : s' = ⟨false, [SGFInstr.emptyTuple, SGFInstr.cleanupAction 2,
      SGFInstr.cleanupAction 1, SGFInstr.ret], [], true, none⟩ := by
    revert hs'
    simp [pushCleanup, sgfFinish, emitReturnAndCleanups]
    intro h1
    exact h1.symm
  rw [this]

/-!
## Linkage computation (claim C6)
-/

/-- Claim-side helper: whether some enclosing context of the declaration,
walking outward until a module context, is a local (function-nested)
context. -/
def hasLocalBeforeModule : DeclContext → Bool
  | .module _ => false
  | .localCtx _ => true
  | .typeCtx p => hasLocalBeforeModule p

/-- Claim-side helper: whether the enclosing module context is a foreign
(Clang) module. -/
def enclosingModuleIsClang : DeclContext → Bool
  | .module isClang => isClang
  | .localCtx p => enclosingModuleIsClang p
  | .typeCtx p => enclosingModuleIsClang p

/-- Claim-side helper: the declaration kinds that receive ClangThunk
linkage when declared in a Clang module (constructors, subscripts, and
computed-property variables). -/
def isForeignThunkKind : DeclKind → Bool
  | .constructor => true
  | .subscriptDecl => true
  | .varDecl isProperty => isProperty
  | _ => false

theorem linkageWalk_eq (k : DeclKind) (ctx : DeclContext) :
    linkageWalk k ctx =
      if hasLocalBeforeModule ctx then .internal
      else if enclosingModuleIsClang ctx && isForeignThunkKind k then .clangThunk
      else .external := by
  induction ctx with
  | module b =>
    cases k <;>
      simp [linkageWalk, hasLocalBeforeModule, enclosingModuleIsClang, isForeignThunkKind]
  | localCtx p ih => simp [linkageWalk, hasLocalBeforeModule]
  | typeCtx p ih =>
    simp [linkageWalk, hasLocalBeforeModule, enclosingModuleIsClang, ih]

/-- Claim C6: the computed linkage is internal for references with no
underlying declaration; internal when any enclosing context up to the
module is local; ClangThunk when the enclosing module is a Clang module and
the declaration is a constructor, subscript, or computed-property variable;
and external for all other module-level declarations. -/
theorem getConstantLinkage_cases (c : SILDeclRef) :
    (∀ i, c.loc = .anonExpr i → getConstantLinkage c = .internal)
    ∧ (∀ d, c.loc = .valueDecl d → hasLocalBeforeModule d.context = true →
        getConstantLinkage c = .internal)
    ∧ (∀ d, c.loc = .valueDecl d → hasLocalBeforeModule d.context = false →
        enclosingModuleIsClang d.context = true → isForeignThunkKind d.kind = true →
        getConstantLinkage c = .clangThunk)
    ∧ (∀ d, c.loc = .valueDecl d → hasLocalBeforeModule d.context = false →
        (enclosingModuleIsClang d.context = false ∨ isForeignThunkKind d.kind = false) →
        getConstantLinkage c = .external) := by
  refine ⟨?_, ?_, ?_, ?_⟩
  · intro i h
    simp [getConstantLinkage, h]
  · intro d h hl
    simp [getConstantLinkage, h, linkageWalk_eq, hl]
  · intro d h hl hc hk
    simp [getConstantLinkage, h, linkageWalk_eq, hl, hc, hk]
  · intro d h hl hor
    rcases hor with hc | hk
    · simp [getConstantLinkage, h, linkageWalk_eq, hl, hc]
    · simp [getConstantLinkage, h, linkageWalk_eq, hl, hk]

/-- Witness for C6: a constructor declared inside a type nested in a Clang
module gets ClangThunk linkage; a declaration in a local context gets
internal linkage; an ordinary module-level function is external. -/
theorem getConstantLinkage_cases_witness :
    getConstantLinkage
        ⟨.valueDecl ⟨0, .constructor, .typeCtx (.module true), 0⟩, .func, 0, false⟩
      = .clangThunk
    ∧ getConstantLinkage
        ⟨.valueDecl ⟨1, .funcDecl false false, .localCtx (.module false), 0⟩, .func, 0, false⟩
      = .internal
    ∧ getConstantLinkage
        ⟨.valueDecl ⟨2, .funcDecl false false, .module false, 0⟩, .func, 0, false⟩
      = .external
    ∧ getConstantLinkage ⟨.anonExpr 3, .func, 0, false⟩ = .internal :=
  ⟨(getConstantLinkage_cases _).2.2.1 _ rfl rfl rfl rfl,
   (getConstantLinkage_cases _).2.1 _ rfl rfl,
   (getConstantLinkage_cases _).2.2.2 _ rfl rfl (Or.inl rfl),
   (getConstantLinkage_cases _).1 _ rfl⟩

/-!
## Cache behavior of getFunction (claims C10 and C4)
-/

theorem getFunction_lookup_self (s : SGMState) (c : SILDeclRef) :
    lookupFn ((getFunction s c).2).cache c = some (getFunction s c).1 := by
  unfold getFunction
  cases h : lookupFn s.cache c with
  | some f => simp [h]
  | none => simp [h, lookupFn]

theorem getFunction_of_lookup (s : SGMState) (c : SILDeclRef) (f : SILFunction)
    (h : lookupFn s.cache c = some f) : getFunction s c = (f, s) := by
  unfold getFunction
  rw [h]

theorem getFunction_stable (s : SGMState) (c : SILDeclRef) (f : SILFunction)
    (s' : SGMState) (h : getFunction s c = (f, s')) : getFunction s' c = (f, s') := by
  have hl : lookupFn s'.cache c = some f := by
    have hself := getFunction_lookup_self s c
    rw [h] at hself
    exact hself
  exact getFunction_of_lookup s' c f hl

/-- Claim C10: after getFunction has been called once for a reference,
hasFunction answers true and every later getFunction call returns the
identical function and leaves the state unchanged; membership is
established by mere reference creation, before any body is emitted (the
freshly created function is bodiless). -/
theorem getFunction_cache_idempotent (s : SGMState) (c : SILDeclRef) :
    hasFunction (getFunction s c).2 c = true
    ∧ getFunction (getFunction s c).2 c = ((getFunction s c).1, (getFunction s c).2)
    ∧ (lookupFn s.cache c = none → ((getFunction s c).1).hasBody = false) := by
  refine ⟨?_, ?_, ?_⟩
  · simp [hasFunction, getFunction_lookup_self]
  · exact getFunction_stable s c _ _ rfl
  · intro h
    simp [getFunction, h]

/-- Witness for C10 on the empty cache: the reference is not cached yet and
the freshly created function is bodiless. -/
theorem getFunction_cache_idempotent_witness :
    ((getFunction ⟨[], 0⟩ ⟨.anonExpr 0, .func, 0, false⟩).1).hasBody = false :=
  (getFunction_cache_idempotent ⟨[], 0⟩ ⟨.anonExpr 0, .func, 0, false⟩).2.2 rfl

theorem lookupFn_mapBody (l : List (SILDeclRef × SILFunction)) (c c' : SILDeclRef) :
    lookupFn (l.map fun kv =>
        (kv.1, if kv.1 = c then { kv.2 with hasBody := true } else kv.2)) c'
      = if c' = c then
          (lookupFn l c').map (fun f => { f with hasBody := true })
        else lookupFn l c' := by
  induction l with
  | nil => by_cases h : c' = c <;> simp [lookupFn, h]
  | cons kv rest ih =>
    obtain ⟨k, f⟩ := kv
    simp only [List.map_cons, lookupFn]
    by_cases hkc : k = c'
    · subst hkc
      by_cases hk : k = c
      · subst hk
        simp
      · simp [hk]
    · simp only [if_neg hkc]
      exact ih

theorem lookupFn_markBody (s : SGMState) (c c' : SILDeclRef) :
    lookupFn (markBody s c).cache c'
      = if c' = c then
          (lookupFn s.cache c').map (fun f => { f with hasBody := true })
        else lookupFn s.cache c' := by
  unfold markBody
  exact lookupFn_mapBody s.cache c c'

theorem emitOneFunction_lookup (s : SGMState) (c : SILDeclRef) (hvr : Bool)
    (s' : SGMState) (ev : Event) (h : emitOneFunction s c hvr = some (s', ev)) :
    ∃ f, lookupFn s'.cache c = some f ∧ f.hasBody = true := by
  unfold emitOneFunction preEmitFunction at h
  by_cases hb : ((getFunction s c).1).hasBody = true
  · rw [if_pos hb] at h
    exact absurd h (by simp)
  · rw [if_neg hb] at h
    simp only [Option.map_some', Option.some.injEq, Prod.mk.injEq] at h
    obtain ⟨hs, _⟩ := h
    subst hs
    rw [lookupFn_markBody, if_pos rfl, getFunction_lookup_self]
    exact ⟨_, rfl, rfl⟩

/-- Claim C4: starting emission a second time for the same reference within
one session hits the pre-emission bodiless assertion and aborts (modelled
as none); the ObjC method thunk entry point instead tolerates a second
request and silently skips it, leaving the state unchanged. -/
theorem double_emission_rejected :
    (∀ (s : SGMState) (c : SILDeclRef) (hvr hvr' : Bool) (s' : SGMState) (ev : Event),
       emitOneFunction s c hvr = some (s', ev) → emitOneFunction s' c hvr' = none)
    ∧ (∀ (s : SGMState) (method : ValueDeclInfo) (s' : SGMState) (tr : List Event),
       emitObjCMethodThunk s method = some (s', tr) →
       emitObjCMethodThunk s' method = some (s', [])) := by
  constructor
  · intro s c hvr hvr' s' ev h
    obtain ⟨f, hf, hb⟩ := emitOneFunction_lookup s c hvr s' ev h
    unfold emitOneFunction preEmitFunction
    rw [getFunction_of_lookup s' c f hf]
    simp [hb]
  · intro s method s' tr h
    unfold emitObjCMethodThunk at h ⊢
    by_cases hmem : hasFunction s (objcMethodThunkRef method) = true
    · simp only [hmem, if_true] at h
      simp only [Option.some.injEq, Prod.mk.injEq] at h
      obtain ⟨hs, _⟩ := h
      subst hs
      simp [hmem]
    · simp only [Bool.not_eq_true] at hmem
      simp only [hmem, Bool.false_eq_true, if_false] at h
      cases hemit : emitOneFunction s (objcMethodThunkRef method) false with
      | none => rw [hemit] at h; exact absurd h (by simp)
      | some p =>
        obtain ⟨s1, ev⟩ := p
        rw [hemit] at h
        simp only [Option.some.injEq, Prod.mk.injEq] at h
        obtain ⟨hs, _⟩ := h
        subst hs
        obtain ⟨f, hf, _⟩ :=
          emitOneFunction_lookup s (objcMethodThunkRef method) false s1 ev hemit
        have : hasFunction s1 (objcMethodThunkRef method) = true := by
          simp [hasFunction, hf]
        simp [this]

/-- Witness for C4 at concrete inputs: re-emitting a reference whose cached
function already has a body aborts, while a second ObjC method thunk
request for an already-emitted thunk is silently skipped. -/
theorem double_emission_rejected_witness :
    emitOneFunction
        ⟨[(⟨.anonExpr 7, .func, 0, false⟩, ⟨0, .internal, true⟩)], 1⟩
        ⟨.anonExpr 7, .func, 0, false⟩ true = none
    ∧ emitObjCMethodThunk
        ⟨[(⟨.valueDecl ⟨9, .funcDecl false false, .module false, 1⟩, .func, 1, true⟩,
           ⟨0, .external, true⟩)], 1⟩
        ⟨9, .funcDecl false false, .module false, 1⟩
      = some (⟨[(⟨.valueDecl ⟨9, .funcDecl false false, .module false, 1⟩, .func, 1, true⟩,
           ⟨0, .external, true⟩)], 1⟩, []) := by
  constructor
  · exact double_emission_rejected.1 ⟨[], 0⟩ ⟨.anonExpr 7, .func, 0, false⟩ true true
      ⟨[(⟨.anonExpr 7, .func, 0, false⟩, ⟨0, .internal, true⟩)], 1⟩
      (.emitted ⟨.anonExpr 7, .func, 0, false⟩ true) (by decide)
  · exact double_emission_rejected.2 ⟨[], 0⟩ ⟨9, .funcDecl false false, .module false, 1⟩
      ⟨[(⟨.valueDecl ⟨9, .funcDecl false false, .module false, 1⟩, .func, 1, true⟩,
         ⟨0, .external, true⟩)], 1⟩
      [.emitted ⟨.valueDecl ⟨9, .funcDecl false false, .module false, 1⟩, .func, 1, true⟩ false]
      (by decide)

/-!
## The bridging-function resolver (claim C5)

getBridgingFn performs unqualified lookup of a conversion function in a
named foreign module and validates the result, aborting the session with a
diagnostic on each failure mode. The lookup outcome and the lowered
signature of the found declaration are environment inputs (the AST and the
type-lowering service live outside this translation unit); exit(1) after a
diagnostic is modelled as Except.error carrying that diagnostic.
-/

/-- Lowered SIL types, opaque to this slice. -/
abbrev SILTy := Nat

/-- One entry of UnqualifiedLookup::Results together with the lowered
function signature the type lowering service reports for it: whether the
entry has a ValueDecl, whether that decl is a FuncDecl (with its
attributes), and the lowered input/result types of SILDeclRef(fd). -/
structure BridgeLookupResult where
  hasValueDecl : Bool
  isFuncDecl : Bool
  fd : ValueDeclInfo
  inputTypes : List SILTy
  resultType : SILTy
deriving DecidableEq

/-- The diagnostics getBridgingFn can emit, each carrying the module and
function name (diag::bridging_module_missing and friends). -/
inductive BridgeDiag where
  | bridging_module_missing (moduleName functionName : String)
  | bridging_function_missing (moduleName functionName : String)
  | bridging_function_overloaded (moduleName functionName : String)
  | bridging_function_not_function (moduleName functionName : String)
  | bridging_function_not_correct_type (moduleName functionName : String)
deriving DecidableEq

/-- The SILDeclRef constructed for the found bridging function
(SILDeclRef c(fd)). -/
def bridgeFoundRef (r : BridgeLookupResult) : SILDeclRef :=
  ⟨.valueDecl r.fd, .func, r.fd.naturalUncurryLevel, false⟩

/-- getBridgingFn: return the cached reference if the slot is filled;
otherwise look up moduleName.functionName (lookupEnv = none models a
missing module, otherwise it is the Results list), diagnose and abort on a
missing function, an ambiguous lookup, a non-function result, or a lowered
signature differing from the expected one, and return the found function
in every other case. -/
def getBridgingFn (cacheSlot : Option SILDeclRef)
    (lookupEnv : Option (List BridgeLookupResult))
    (moduleName functionName : String)
    (inputTypes : List SILTy) (outputType : SILTy) :
    Except BridgeDiag SILDeclRef :=
  match cacheSlot with
  | some c => .ok c
  | none =>
    match lookupEnv with
    | none => .error (.bridging_module_missing moduleName functionName)
    | some results =>
      match results with
      | [] => .error (.bridging_function_missing moduleName functionName)
      | [r] =>
        if !r.hasValueDecl then
          .error (.bridging_function_not_function moduleName functionName)
        else if !r.isFuncDecl then
          .error (.bridging_function_not_function moduleName functionName)
        else if r.inputTypes ≠ inputTypes then
          .error (.bridging_function_not_correct_type moduleName functionName)
        else if r.resultType ≠ outputType then
          .error (.bridging_function_not_correct_type moduleName functionName)
        else
          .ok (bridgeFoundRef r)
      | _ :: _ :: _ =>
        .error (.bridging_function_overloaded moduleName functionName)

/-- Claim C5: an uncached bridging resolution aborts with the
missing-module diagnostic exactly when the module cannot be found, the
missing-function diagnostic exactly when lookup yields nothing, the
ambiguous-function diagnostic exactly when it yields more than one
candidate, the not-a-function diagnostic exactly when the single result is
not a function declaration, and the signature-mismatch diagnostic exactly
when the lowered input or result types differ from the expected signature;
each diagnostic carries the module and function name, and in every other
case resolution returns the found function. -/
theorem getBridgingFn_diagnostics
    (lookupEnv : Option (List BridgeLookupResult))
    (moduleName functionName : String)
    (inputTypes : List SILTy) (outputType : SILTy) :
    (getBridgingFn none lookupEnv moduleName functionName inputTypes outputType
        = .error (.bridging_module_missing moduleName functionName)
      ↔ lookupEnv = none)
    ∧ (getBridgingFn none lookupEnv moduleName functionName inputTypes outputType
        = .error (.bridging_function_missing moduleName functionName)
      ↔ lookupEnv = some [])
    ∧ (getBridgingFn none lookupEnv moduleName functionName inputTypes outputType
        = .error (.bridging_function_overloaded moduleName functionName)
      ↔ ∃ rs, lookupEnv = some rs ∧ 2 ≤ rs.length)
    ∧ (getBridgingFn none lookupEnv moduleName functionName inputTypes outputType
        = .error (.bridging_function_not_function moduleName functionName)
      ↔ ∃ r, lookupEnv = some [r]
          ∧ (r.hasValueDecl = false ∨ r.isFuncDecl = false))
    ∧ (getBridgingFn none lookupEnv moduleName functionName inputTypes outputType
        = .error (.bridging_function_not_correct_type moduleName functionName)
      ↔ ∃ r, lookupEnv = some [r]
          ∧ r.hasValueDecl = true ∧ r.isFuncDecl = true
          ∧ (r.inputTypes ≠ inputTypes ∨ r.resultType ≠ outputType))
    ∧ (∀ r, lookupEnv = some [r] → r.hasValueDecl = true → r.isFuncDecl = true →
        r.inputTypes = inputTypes → r.resultType = outputType →
        getBridgingFn none lookupEnv moduleName functionName inputTypes outputType
          = .ok (bridgeFoundRef r)) := by
  have hcase :
      ∀ r : BridgeLookupResult,
        getBridgingFn none (some [r]) moduleName functionName inputTypes outputType
          = if !r.hasValueDecl then
              .error (.bridging_function_not_function moduleName functionName)
            else if !r.isFuncDecl then
              .error (.bridging_function_not_function moduleName functionName)
            else if r.inputTypes ≠ inputTypes then
              .error (.bridging_function_not_correct_type moduleName functionName)
            else if r.resultType ≠ outputType then
              .error (.bridging_function_not_correct_type moduleName functionName)
            else .ok (bridgeFoundRef r) := fun r => rfl
  refine ⟨?_, ?_, ?_, ?_, ?_, ?_⟩
  · constructor
    · intro h
      match lookupEnv with
      | none => rfl
      | some [] => exact absurd h (by simp [getBridgingFn])
      | some [r] =>
        rw [hcase r] at h
        split_ifs at h <;> simp_all
      | some (r1 :: r2 :: rs) => exact absurd h (by simp [getBridgingFn])
    · intro h
      subst h
      rfl
  · constructor
    · intro h
      match lookupEnv with
      | none => exact absurd h (by simp [getBridgingFn])
      | some [] => rfl
      | some [r] =>
        rw [hcase r] at h
        split_ifs at h <;> simp_all
      | some (r1 :: r2 :: rs) => exact absurd h (by simp [getBridgingFn])
    · intro h
      subst h
      rfl
  · constructor
    · intro h
      match lookupEnv with
      | none => exact absurd h (by simp [getBridgingFn])
      | some [] => exact absurd h (by simp [getBridgingFn])
      | some [r] =>
        rw [hcase r] at h
        split_ifs at h <;> simp_all
      | some (r1 :: r2 :: rs) =>
        exact ⟨r1 :: r2 :: rs, rfl, by simp [List.length_cons]⟩
    · rintro ⟨rs, hrs, hlen⟩
      subst hrs
      match rs, hlen with
      | r1 :: r2 :: rest, _ => rfl
  · constructor
    · intro h
      match lookupEnv with
      | none => exact absurd h (by simp [getBridgingFn])
      | some [] => exact absurd h (by simp [getBridgingFn])
      | some [r] =>
        refine ⟨r, rfl, ?_⟩
        rw [hcase r] at h
        split_ifs at h with h1 h2 h3 h4 <;> simp_all
      | some (r1 :: r2 :: rs) => exact absurd h (by simp [getBridgingFn])
    · rintro ⟨r, hr, hbad⟩
      subst hr
      rw [hcase r]
      rcases hbad with hb | hb <;> simp [hb]
  · constructor
    · intro h
      match lookupEnv with
      | none => exact absurd h (by simp [getBridgingFn])
      | some [] => exact absurd h (by simp [getBridgingFn])
      | some [r] =>
        refine ⟨r, rfl, ?_⟩
        rw [hcase r] at h
        split_ifs at h with h1 h2 h3 h4 <;> simp_all
      | some (r1 :: r2 :: rs) => exact absurd h (by simp [getBridgingFn])
    · rintro ⟨r, hr, hv, hf, hbad⟩
      subst hr
      rw [hcase r]
      rcases hbad with hb | hb <;> simp_all
  · intro r hr hv hf hin hout
    subst hr
    rw [hcase r]
    simp [hv, hf, hin, hout]

/-- Witness for C5: a single candidate whose lowered signature takes two
parameters instead of the expected one aborts with the signature-mismatch
diagnostic carrying the module and function name; a well-typed candidate
resolves to the found function. -/
theorem getBridgingFn_diagnostics_witness :
    getBridgingFn none
        (some [⟨true, true, ⟨0, .funcDecl false false, .module true, 0⟩, [3, 4], 5⟩])
        "Foundation" "convertStringToNSString" [3] 5
      = .error (.bridging_function_not_correct_type "Foundation"
          "convertStringToNSString")
    ∧ getBridgingFn none
        (some [⟨true, true, ⟨0, .funcDecl false false, .module true, 0⟩, [3], 5⟩])
        "Foundation" "convertStringToNSString" [3] 5
      = .ok (bridgeFoundRef ⟨true, true, ⟨0, .funcDecl false false, .module true, 0⟩, [3], 5⟩) :=
  ⟨(getBridgingFn_diagnostics
      (some [⟨true, true, ⟨0, .funcDecl false false, .module true, 0⟩, [3, 4], 5⟩])
      "Foundation" "convertStringToNSString" [3] 5).2.2.2.2.1.mpr
      ⟨_, rfl, by decide, by decide, Or.inl (by decide)⟩,
   (getBridgingFn_diagnostics
      (some [⟨true, true, ⟨0, .funcDecl false false, .module true, 0⟩, [3], 5⟩])
      "Foundation" "convertStringToNSString" [3] 5).2.2.2.2.2
      _ rfl rfl rfl rfl rfl⟩

/-!
## Default-argument generators (claims C2, C3, C7)
-/

/-- A parameter pattern after getSemanticsProvidingPattern: a non-tuple
pattern occupies one positional slot with no default initializer reachable
by emitDefaultArgGenerators; a tuple pattern's fields each optionally carry
a default initializer, whose Bool records whether the argument expression's
type is void (that flag becomes the generator's hasVoidReturn). -/
inductive Pattern where
  | plain
  | tuple (fields : List (Option Bool))
deriving DecidableEq

/-- SILDeclRef::getDefaultArgGenerator(decl, index). -/
def defaultArgGeneratorRef (loc : DeclLoc) (index : Nat) : SILDeclRef :=
  ⟨loc, .defaultArgGenerator index, 0, false⟩

/-- SILGenModule::emitDefaultArgGenerator: emit one synthesized function
for a defaulted parameter, with hasVoidReturn from the argument
expression's type. -/
def emitDefaultArgGenerator (s : SGMState) (c : SILDeclRef) (argIsVoid : Bool) :
    Option (SGMState × Event) :=
  emitOneFunction s c argIsVoid

/-- The inner field loop of SILGenModule::emitDefaultArgGenerators: every
field advances the flattened index; a field with an initializer triggers a
generator emission at the current index first. -/
def emitFieldGenerators (loc : DeclLoc) :
    SGMState → List (Option Bool) → Nat → Option (SGMState × List Event × Nat)
  | s, [], index => some (s, [], index)
  | s, none :: rest, index => emitFieldGenerators loc s rest (index + 1)
  | s, some isVoid :: rest, index =>
    (emitDefaultArgGenerator s (defaultArgGeneratorRef loc index) isVoid).bind
      fun p1 =>
        (emitFieldGenerators loc p1.1 rest (index + 1)).map
          fun p2 => (p2.1, p1.2 :: p2.2.1, p2.2.2)

/-- The outer pattern loop of SILGenModule::emitDefaultArgGenerators: a
non-tuple pattern advances the index by one; a tuple pattern descends into
its fields. -/
def emitPatternGenerators (loc : DeclLoc) :
    SGMState → List Pattern → Nat → Option (SGMState × List Event × Nat)
  | s, [], index => some (s, [], index)
  | s, .plain :: rest, index => emitPatternGenerators loc s rest (index + 1)
  | s, .tuple fields :: rest, index =>
    (emitFieldGenerators loc s fields index).bind fun p1 =>
      (emitPatternGenerators loc p1.1 rest p1.2.2).map fun p2 =>
        (p2.1, p1.2.1 ++ p2.2.1, p2.2.2)

/-- SILGenModule::emitDefaultArgGenerators. -/
def emitDefaultArgGenerators (s : SGMState) (loc : DeclLoc)
    (patterns : List Pattern) : Option (SGMState × List Event) :=
  (emitPatternGenerators loc s patterns 0).map fun p => (p.1, p.2.1)

/-- Claim-side helper: the positional slots of one pattern, descending into
tuple sub-patterns. -/
def patternSlots : Pattern → List (Option Bool)
  | .plain => [none]
  | .tuple fields => fields

/-- Claim-side helper, following the claim's words: one generator event per
parameter slot with a default initializer, indexed by flattened positional
index over the parameter patterns starting at the given index. -/
def claimedGenerators (loc : DeclLoc) (patterns : List Pattern) (start : Nat) :
    List Event :=
  (List.enumFrom start (patterns.map patternSlots).flatten).filterMap fun p =>
    p.2.map fun isVoid => .emitted (defaultArgGeneratorRef loc p.1) isVoid

theorem emitOneFunction_event (s : SGMState) (c : SILDeclRef) (hvr : Bool)
    (s' : SGMState) (ev : Event) (h : emitOneFunction s c hvr = some (s', ev)) :
    ev = .emitted c hvr := by
  unfold emitOneFunction at h
  cases hp : preEmitFunction s c with
  | none => rw [hp] at h; exact absurd h (by simp)
  | some s1 =>
    rw [hp] at h
    simp only [Option.map_some', Option.some.injEq, Prod.mk.injEq] at h
    exact h.2.symm

theorem emitFieldGenerators_eq (loc : DeclLoc) (fields : List (Option Bool)) :
    ∀ (s : SGMState) (index : Nat) (s' : SGMState) (tr : List Event) (idx : Nat),
      emitFieldGenerators loc s fields index = some (s', tr, idx) →
      tr = (List.enumFrom index fields).filterMap (fun p =>
          p.2.map fun isVoid => .emitted (defaultArgGeneratorRef loc p.1) isVoid)
        ∧ idx = index + fields.length := by
  induction fields with
  | nil =>
    intro s index s' tr idx h
    simp only [emitFieldGenerators, Option.some.injEq, Prod.mk.injEq] at h
    obtain ⟨-, htr, hidx⟩ := h
    subst htr hidx
    simp [List.enumFrom]
  | cons o rest ih =>
    intro s index s' tr idx h
    cases o with
    | none =>
      have := ih s (index + 1) s' tr idx h
      obtain ⟨htr, hidx⟩ := this
      subst htr hidx
      constructor
      · simp [List.enumFrom]
      · simp
        omega
    | some v =>
      unfold emitFieldGenerators at h
      cases h1 : emitDefaultArgGenerator s (defaultArgGeneratorRef loc index) v with
      | none => rw [h1] at h; exact absurd h (by simp)
      | some p1 =>
        obtain ⟨s1, ev⟩ := p1
        rw [h1, Option.some_bind] at h
        dsimp only at h
        cases h2 : emitFieldGenerators loc s1 rest (index + 1) with
        | none => rw [h2] at h; exact absurd h (by simp)
        | some p2 =>
          obtain ⟨s2, tr2, idx2⟩ := p2
          rw [h2, Option.map_some'] at h
          dsimp only at h
          simp only [Option.some.injEq, Prod.mk.injEq] at h
          obtain ⟨-, htr, hidx⟩ := h
          subst htr hidx
          have hev := emitOneFunction_event s (defaultArgGeneratorRef loc index) v s1 ev h1
          subst hev
          obtain ⟨htr2, hidx2⟩ := ih s1 (index + 1) s2 tr2 idx2 h2
          subst htr2 hidx2
          constructor
          · simp [List.enumFrom]
          · simp
            omega

theorem emitPatternGenerators_eq (loc : DeclLoc) (ps : List Pattern) :
    ∀ (s : SGMState) (index : Nat) (s' : SGMState) (tr : List Event) (idx : Nat),
      emitPatternGenerators loc s ps index = some (s', tr, idx) →
      tr = (List.enumFrom index (ps.map patternSlots).flatten).filterMap (fun p =>
          p.2.map fun isVoid => .emitted (defaultArgGeneratorRef loc p.1) isVoid)
        ∧ idx = index + ((ps.map patternSlots).flatten).length := by
  induction ps with
  | nil =>
    intro s index s' tr idx h
    simp only [emitPatternGenerators, Option.some.injEq, Prod.mk.injEq] at h
    obtain ⟨-, htr, hidx⟩ := h
    subst htr hidx
    simp [List.enumFrom]
  | cons p rest ih =>
    intro s index s' tr idx h
    cases p with
    | plain =>
      obtain ⟨htr, hidx⟩ := ih s (index + 1) s' tr idx h
      subst htr hidx
      constructor
      · simp [patternSlots, List.enumFrom]
      · simp [patternSlots]
        omega
    | tuple fields =>
      unfold emitPatternGenerators at h
      cases h1 : emitFieldGenerators loc s fields index with
      | none => rw [h1] at h; exact absurd h (by simp)
      | some p1 =>
        obtain ⟨s1, tr1, idx1⟩ := p1
        rw [h1, Option.some_bind] at h
        dsimp only at h
        cases h2 : emitPatternGenerators loc s1 rest idx1 with
        | none => rw [h2] at h; exact absurd h (by simp)
        | some p2 =>
          obtain ⟨s2, tr2, idx2⟩ := p2
          rw [h2, Option.map_some'] at h
          dsimp only at h
          simp only [Option.some.injEq, Prod.mk.injEq] at h
          obtain ⟨-, htr, hidx⟩ := h
          subst htr hidx
          obtain ⟨htr1, hidx1⟩ := emitFieldGenerators_eq loc fields s index s1 tr1 idx1 h1
          obtain ⟨htr2, hidx2⟩ := ih s1 idx1 s2 tr2 idx2 h2
          subst htr1 htr2 hidx1 hidx2
          constructor
          · simp only [List.map_cons, patternSlots, List.flatten_cons,
              List.enumFrom_append, List.filterMap_append]
          · simp [patternSlots]
            omega

theorem emitDefaultArgGenerators_eq (s : SGMState) (loc : DeclLoc)
    (patterns : List Pattern) (s' : SGMState) (tr : List Event)
    (h : emitDefaultArgGenerators s loc patterns = some (s', tr)) :
    tr = claimedGenerators loc patterns 0 := by
  unfold emitDefaultArgGenerators at h
  cases h1 : emitPatternGenerators loc s patterns 0 with
  | none => rw [h1] at h; exact absurd h (by simp)
  | some p1 =>
    obtain ⟨s1, tr1, idx1⟩ := p1
    rw [h1, Option.map_some'] at h
    dsimp only at h
    simp only [Option.some.injEq, Prod.mk.injEq] at h
    obtain ⟨-, htr⟩ := h
    subst htr
    exact (emitPatternGenerators_eq loc patterns s 0 s1 tr1 idx1 h1).1

theorem claimedGenerators_isDefaultArgGen (loc : DeclLoc)
    (patterns : List Pattern) (start : Nat) :
    ∀ e ∈ claimedGenerators loc patterns start, e.isDefaultArgGen = true := by
  intro e he
  simp only [claimedGenerators, List.mem_filterMap] at he
  obtain ⟨⟨i, o⟩, hmem, hmap⟩ := he
  cases o with
  | none => exact absurd hmap (by simp)
  | some v =>
    simp only [Option.map_some', Option.some.injEq] at hmap
    subst hmap
    rfl

/-!
## emitFunction, curry thunks, and emitConstructor (claims C2, C3, C7)
-/

/-- The attributes of a FuncExpr consulted by SILGenModule::emitFunction:
its optional FuncDecl (fe.getDecl), the argument parameter patterns
(already in semantics-providing form), whether a body is present, whether
the declared result type is void, and whether the lowered function type is
polymorphic (generic). -/
structure FuncExpr where
  fdecl : Option ValueDeclInfo
  argParamPatterns : List Pattern
  hasBody : Bool
  resultIsVoid : Bool
  loweredIsPolymorphic : Bool
deriving DecidableEq

/-- The patterns emitFunction hands to the default-argument generator
emitter: the implicit leading self parameter list is sliced off when the
declaration's context is a type context. -/
def effectivePatterns (fe : FuncExpr) : List Pattern :=
  match fe.fdecl with
  | some d =>
    if d.context.isTypeContext then fe.argParamPatterns.drop 1
    else fe.argParamPatterns
  | none => fe.argParamPatterns

/-- The natural uncurry level of a SILDeclRef::Loc (computed from the
declaration type outside this translation unit; an anonymous closure
location plays no role in emitFunction's callers in this slice). -/
def DeclLoc.naturalUncurryLevel : DeclLoc → Nat
  | .valueDecl d => d.naturalUncurryLevel
  | .anonExpr _ => 0

/-- SILDeclRef constant(decl): the main entry point at the natural uncurry
level. -/
def mainFunctionRef (decl : DeclLoc) (uncurryLevel : Nat) : SILDeclRef :=
  ⟨decl, .func, uncurryLevel, false⟩

/-- decl.dyn_cast ValueDecl followed by dyn_cast_or_null FuncDecl: the
getter/setter and instance-member flags when the location is a function
declaration. -/
def declFuncFlags : DeclLoc → Option (Bool × Bool)
  | .valueDecl v =>
    match v.kind with
    | .funcDecl g i => some (g, i)
    | _ => none
  | .anonExpr _ => none

/-- The three early returns guarding the curry-thunk loop: getters and
setters, instance members, and polymorphic lowered types skip thunk
emission. -/
def skipsCurryThunks (decl : DeclLoc) (fe : FuncExpr) : Bool :=
  (match declFuncFlags decl with
   | some (g, i) => g || i
   | none => false) || fe.loweredIsPolymorphic

/-- SILGenModule::emitCurryThunk: emit one curry thunk function whose entry
point forwards to the next-higher uncurry level's entry point. -/
def emitCurryThunk (s : SGMState) (entryPoint nextEntryPoint : SILDeclRef) :
    Option (SGMState × Event) :=
  (preEmitFunction s entryPoint).map fun s1 =>
    (markBody s1 entryPoint, .thunk entryPoint nextEntryPoint)

/-- The while loop of SILGenModule::emitFunction generating the curry
thunks: while level-- is positive, emit a thunk at the decremented level
forwarding to the previous constant, then continue from the new one. -/
def emitCurryThunkChain :
    SGMState → SILDeclRef → Nat → Option (SGMState × List Event)
  | s, _, 0 => some (s, [])
  | s, constant, l + 1 =>
    (emitCurryThunk s (constant.atUncurryLevel l) constant).bind fun p1 =>
      (emitCurryThunkChain p1.1 (constant.atUncurryLevel l) l).map fun p2 =>
        (p2.1, p1.2 :: p2.2)

/-- SILGenModule::emitFunction (the FuncExpr overload): emit the default
argument generators first (self sliced for type members), return early for
bodiless prototypes, emit the main body, then — unless the declaration is
a getter/setter, an instance member, or its lowered type is polymorphic —
emit the chain of curry thunks down to level zero. -/
def emitFunction (s : SGMState) (decl : DeclLoc) (fe : FuncExpr) :
    Option (SGMState × List Event) :=
  (emitDefaultArgGenerators s decl (effectivePatterns fe)).bind fun pg =>
    if !fe.hasBody then some (pg.1, pg.2)
    else
      (emitOneFunction pg.1 (mainFunctionRef decl decl.naturalUncurryLevel)
          fe.resultIsVoid).bind fun pm =>
        if skipsCurryThunks decl fe then some (pm.1, pg.2 ++ [pm.2])
        else
          (emitCurryThunkChain pm.1 (mainFunctionRef decl decl.naturalUncurryLevel)
              (mainFunctionRef decl decl.naturalUncurryLevel).uncurryLevel).map
            fun pt => (pt.1, pg.2 ++ [pm.2] ++ pt.2)

/-- Claim-side helper: the expected chain of curry thunks — one per level
from n-1 down to 0, each forwarding to the next-higher level's entry
point. -/
def curryThunkChainSpec (constant : SILDeclRef) (n : Nat) : List Event :=
  (List.range n).reverse.map fun l =>
    .thunk (constant.atUncurryLevel l) (constant.atUncurryLevel (l + 1))

theorem emitCurryThunk_event (s : SGMState) (e n : SILDeclRef)
    (s' : SGMState) (ev : Event) (h : emitCurryThunk s e n = some (s', ev)) :
    ev = .thunk e n := by
  unfold emitCurryThunk at h
  cases hp : preEmitFunction s e with
  | none => rw [hp] at h; exact absurd h (by simp)
  | some s1 =>
    rw [hp, Option.map_some'] at h
    simp only [Option.some.injEq, Prod.mk.injEq] at h
    exact h.2.symm

theorem emitCurryThunkChain_eq (level : Nat) :
    ∀ (s : SGMState) (constant : SILDeclRef),
      constant.uncurryLevel = level →
      ∀ (s' : SGMState) (tr : List Event),
        emitCurryThunkChain s constant level = some (s', tr) →
        tr = curryThunkChainSpec constant level := by
  induction level with
  | zero =>
    intro s c hc s' tr h
    simp only [emitCurryThunkChain, Option.some.injEq, Prod.mk.injEq] at h
    obtain ⟨-, htr⟩ := h
    subst htr
    simp [curryThunkChainSpec]
  | succ l ih =>
    intro s c hc s' tr h
    unfold emitCurryThunkChain at h
    cases h1 : emitCurryThunk s (c.atUncurryLevel l) c with
    | none => rw [h1] at h; exact absurd h (by simp)
    | some p1 =>
      obtain ⟨s1, ev⟩ := p1
      rw [h1, Option.some_bind] at h
      dsimp only at h
      cases h2 : emitCurryThunkChain s1 (c.atUncurryLevel l) l with
      | none => rw [h2] at h; exact absurd h (by simp)
      | some p2 =>
        obtain ⟨s2, tr2⟩ := p2
        rw [h2, Option.map_some'] at h
        dsimp only at h
        simp only [Option.some.injEq, Prod.mk.injEq] at h
        obtain ⟨-, htr⟩ := h
        subst htr
        have hev := emitCurryThunk_event s (c.atUncurryLevel l) c s1 ev h1
        subst hev
        have htr2 := ih s1 (c.atUncurryLevel l) rfl s2 tr2 h2
        subst htr2
        obtain ⟨cl, ck, cu, co⟩ := c
        simp only [SILDeclRef.atUncurryLevel] at hc ⊢
        subst hc
        simp [curryThunkChainSpec, List.range_succ, SILDeclRef.atUncurryLevel]

/-- Claim C3: for every function with a body emitted at its natural uncurry
level N: when it is not a getter or setter, not an instance member, and its
lowered type is not polymorphic, the main body is followed by exactly N
curry thunks, one per level from N-1 down to 0, each forwarding to the
next-higher level's entry point; when it is an accessor, an instance
member, or generic, no curry thunks are emitted. -/
theorem emitFunction_curry_thunks (s : SGMState) (decl : DeclLoc) (fe : FuncExpr)
    (s' : SGMState) (tr : List Event)
    (hbody : fe.hasBody = true)
    (h : emitFunction s decl fe = some (s', tr)) :
    (skipsCurryThunks decl fe = false →
      tr = claimedGenerators decl (effectivePatterns fe) 0
          ++ [.emitted (mainFunctionRef decl decl.naturalUncurryLevel) fe.resultIsVoid]
          ++ curryThunkChainSpec (mainFunctionRef decl decl.naturalUncurryLevel)
               decl.naturalUncurryLevel
        ∧ (curryThunkChainSpec (mainFunctionRef decl decl.naturalUncurryLevel)
             decl.naturalUncurryLevel).length = decl.naturalUncurryLevel)
    ∧ (skipsCurryThunks decl fe = true →
      tr = claimedGenerators decl (effectivePatterns fe) 0
          ++ [.emitted (mainFunctionRef decl decl.naturalUncurryLevel) fe.resultIsVoid]) := by
  unfold emitFunction at h
  cases h1 : emitDefaultArgGenerators s decl (effectivePatterns fe) with
  | none => rw [h1] at h; exact absurd h (by simp)
  | some pg =>
    obtain ⟨s1, gtr⟩ := pg
    rw [h1, Option.some_bind] at h
    dsimp only at h
    rw [hbody] at h
    simp only [Bool.not_true, Bool.false_eq_true, if_false] at h
    cases h2 : emitOneFunction s1 (mainFunctionRef decl decl.naturalUncurryLevel)
        fe.resultIsVoid with
    | none => rw [h2] at h; exact absurd h (by simp)
    | some pm =>
      obtain ⟨s2, mainEv⟩ := pm
      rw [h2, Option.some_bind] at h
      dsimp only at h
      have hgen := emitDefaultArgGenerators_eq s decl (effectivePatterns fe) s1 gtr h1
      have hmain := emitOneFunction_event s1
        (mainFunctionRef decl decl.naturalUncurryLevel) fe.resultIsVoid s2 mainEv h2
      subst hgen hmain
      constructor
      · intro hskip
        rw [hskip] at h
        simp only [Bool.false_eq_true, if_false] at h
        cases h3 : emitCurryThunkChain s2 (mainFunctionRef decl decl.naturalUncurryLevel)
            (mainFunctionRef decl decl.naturalUncurryLevel).uncurryLevel with
        | none => rw [h3] at h; exact absurd h (by simp)
        | some pt =>
          obtain ⟨s3, ttr⟩ := pt
          rw [h3, Option.map_some'] at h
          dsimp only at h
          simp only [Option.some.injEq, Prod.mk.injEq] at h
          obtain ⟨-, htr⟩ := h
          subst htr
          have := emitCurryThunkChain_eq
            (mainFunctionRef decl decl.naturalUncurryLevel).uncurryLevel s2
            (mainFunctionRef decl decl.naturalUncurryLevel) rfl s3 ttr h3
          subst this
          constructor
          · rfl
          · simp [curryThunkChainSpec, mainFunctionRef]
      · intro hskip
        rw [hskip] at h
        simp only [if_true] at h
        simp only [Option.some.injEq, Prod.mk.injEq] at h
        obtain ⟨-, htr⟩ := h
        subst htr
        rfl

/-- Witness for C3: a module-level function with natural uncurry level 2
(three curried argument lists), no accessor or instance-member flags, and a
non-polymorphic lowered type yields 1 main function plus 2 curry thunks
forwarding level 1 to 2 and level 0 to 1. -/
theorem emitFunction_curry_thunks_witness :
    [Event.emitted ⟨.valueDecl ⟨0, .funcDecl false false, .module false, 2⟩, .func, 2, false⟩ false,
     Event.thunk ⟨.valueDecl ⟨0, .funcDecl false false, .module false, 2⟩, .func, 1, false⟩
       ⟨.valueDecl ⟨0, .funcDecl false false, .module false, 2⟩, .func, 2, false⟩,
     Event.thunk ⟨.valueDecl ⟨0, .funcDecl false false, .module false, 2⟩, .func, 0, false⟩
       ⟨.valueDecl ⟨0, .funcDecl false false, .module false, 2⟩, .func, 1, false⟩]
      = claimedGenerators (.valueDecl ⟨0, .funcDecl false false, .module false, 2⟩)
          (effectivePatterns ⟨none, [.plain, .plain, .plain], true, false, false⟩) 0
        ++ [.emitted (mainFunctionRef (.valueDecl ⟨0, .funcDecl false false, .module false, 2⟩)
              (DeclLoc.naturalUncurryLevel (.valueDecl ⟨0, .funcDecl false false, .module false, 2⟩))) false]
        ++ curryThunkChainSpec
            (mainFunctionRef (.valueDecl ⟨0, .funcDecl false false, .module false, 2⟩)
              (DeclLoc.naturalUncurryLevel (.valueDecl ⟨0, .funcDecl false false, .module false, 2⟩)))
            (DeclLoc.naturalUncurryLevel (.valueDecl ⟨0, .funcDecl false false, .module false, 2⟩))
      ∧ (curryThunkChainSpec
            (mainFunctionRef (.valueDecl ⟨0, .funcDecl false false, .module false, 2⟩)
              (DeclLoc.naturalUncurryLevel (.valueDecl ⟨0, .funcDecl false false, .module false, 2⟩)))
            (DeclLoc.naturalUncurryLevel (.valueDecl ⟨0, .funcDecl false false, .module false, 2⟩))).length
          = DeclLoc.naturalUncurryLevel (.valueDecl ⟨0, .funcDecl false false, .module false, 2⟩) :=
  (emitFunction_curry_thunks ⟨[], 0⟩
    (.valueDecl ⟨0, .funcDecl false false, .module false, 2⟩)
    ⟨none, [.plain, .plain, .plain], true, false, false⟩
    ⟨[(⟨.valueDecl ⟨0, .funcDecl false false, .module false, 2⟩, .func, 0, false⟩, ⟨2, .external, true⟩),
      (⟨.valueDecl ⟨0, .funcDecl false false, .module false, 2⟩, .func, 1, false⟩, ⟨1, .external, true⟩),
      (⟨.valueDecl ⟨0, .funcDecl false false, .module false, 2⟩, .func, 2, false⟩, ⟨0, .external, true⟩)], 3⟩
    [Event.emitted ⟨.valueDecl ⟨0, .funcDecl false false, .module false, 2⟩, .func, 2, false⟩ false,
     Event.thunk ⟨.valueDecl ⟨0, .funcDecl false false, .module false, 2⟩, .func, 1, false⟩
       ⟨.valueDecl ⟨0, .funcDecl false false, .module false, 2⟩, .func, 2, false⟩,
     Event.thunk ⟨.valueDecl ⟨0, .funcDecl false false, .module false, 2⟩, .func, 0, false⟩
       ⟨.valueDecl ⟨0, .funcDecl false false, .module false, 2⟩, .func, 1, false⟩]
    rfl (by decide)).1 rfl

/-- Counterexample to C7 as stated: a bodiless prototype whose parameter
tuple has a defaulted field still emits that default-argument generator —
emission is not skipped entirely for prototypes, because the generators are
emitted before the body check. -/
theorem emitFunction_prototype_counterexample :
    (emitFunction ⟨[], 0⟩ (.valueDecl ⟨0, .funcDecl false false, .module false, 0⟩)
        ⟨none, [.tuple [some true]], false, true, false⟩).map Prod.snd
      = some [.emitted (defaultArgGeneratorRef
          (.valueDecl ⟨0, .funcDecl false false, .module false, 0⟩) 0) true]
    ∧ (emitFunction ⟨[], 0⟩ (.valueDecl ⟨0, .funcDecl false false, .module false, 0⟩)
        ⟨none, [.tuple [some true]], false, true, false⟩).map Prod.snd
      ≠ some [] := by decide

/-- Claim C7 (amended): default-argument generators — one per defaulted
parameter at its flattened positional index, with the implicit leading self
parameter list skipped for type members — are emitted regardless of whether
the declaration has a body; for a bodiless prototype only the main-body
(and thunk) emission is skipped, so its trace is exactly those generators,
while a declaration with a body emits them before the main body. -/
theorem emitFunction_default_arg_generators (s : SGMState) (decl : DeclLoc)
    (fe : FuncExpr) (s' : SGMState) (tr : List Event)
    (h : emitFunction s decl fe = some (s', tr)) :
    (fe.hasBody = false → tr = claimedGenerators decl (effectivePatterns fe) 0)
    ∧ (fe.hasBody = true →
        ∃ rest, tr = claimedGenerators decl (effectivePatterns fe) 0
            ++ [.emitted (mainFunctionRef decl decl.naturalUncurryLevel) fe.resultIsVoid]
            ++ rest) := by
  unfold emitFunction at h
  cases h1 : emitDefaultArgGenerators s decl (effectivePatterns fe) with
  | none => rw [h1] at h; exact absurd h (by simp)
  | some pg =>
    obtain ⟨s1, gtr⟩ := pg
    rw [h1, Option.some_bind] at h
    dsimp only at h
    have hgen := emitDefaultArgGenerators_eq s decl (effectivePatterns fe) s1 gtr h1
    subst hgen
    constructor
    · intro hbody
      rw [hbody] at h
      simp only [Bool.not_false, if_true] at h
      simp only [Option.some.injEq, Prod.mk.injEq] at h
      exact h.2.symm
    · intro hbody
      rw [hbody] at h
      simp only [Bool.not_true, Bool.false_eq_true, if_false] at h
      cases h2 : emitOneFunction s1 (mainFunctionRef decl decl.naturalUncurryLevel)
          fe.resultIsVoid with
      | none => rw [h2] at h; exact absurd h (by simp)
      | some pm =>
        obtain ⟨s2, mainEv⟩ := pm
        rw [h2, Option.some_bind] at h
        dsimp only at h
        have hmain := emitOneFunction_event s1
          (mainFunctionRef decl decl.naturalUncurryLevel) fe.resultIsVoid s2 mainEv h2
        subst hmain
        by_cases hskip : skipsCurryThunks decl fe = true
        · rw [hskip] at h
          simp only [if_true, Option.some.injEq, Prod.mk.injEq] at h
          exact ⟨[], by rw [← h.2]; simp⟩
        · simp only [Bool.not_eq_true] at hskip
          rw [hskip] at h
          simp only [Bool.false_eq_true, if_false] at h
          cases h3 : emitCurryThunkChain s2 (mainFunctionRef decl decl.naturalUncurryLevel)
              (mainFunctionRef decl decl.naturalUncurryLevel).uncurryLevel with
          | none => rw [h3] at h; exact absurd h (by simp)
          | some pt =>
            obtain ⟨s3, ttr⟩ := pt
            rw [h3, Option.map_some'] at h
            dsimp only at h
            simp only [Option.some.injEq, Prod.mk.injEq] at h
            exact ⟨ttr, h.2.symm⟩

/-- Witness for C7 (amended) at a concrete type-member function with a
body: the self parameter list is sliced off and the two defaulted fields
yield generators at flattened indices 0 and 2, before the main body. -/
theorem emitFunction_default_arg_generators_witness :
    ∃ rest,
      [Event.emitted (defaultArgGeneratorRef
          (.valueDecl ⟨3, .funcDecl false false, .typeCtx (.module false), 1⟩) 0) false,
       Event.emitted (defaultArgGeneratorRef
          (.valueDecl ⟨3, .funcDecl false false, .typeCtx (.module false), 1⟩) 2) true,
       Event.emitted ⟨.valueDecl ⟨3, .funcDecl false false, .typeCtx (.module false), 1⟩, .func, 1, false⟩ true,
       Event.thunk ⟨.valueDecl ⟨3, .funcDecl false false, .typeCtx (.module false), 1⟩, .func, 0, false⟩
         ⟨.valueDecl ⟨3, .funcDecl false false, .typeCtx (.module false), 1⟩, .func, 1, false⟩]
        = claimedGenerators (.valueDecl ⟨3, .funcDecl false false, .typeCtx (.module false), 1⟩)
            (effectivePatterns ⟨some ⟨3, .funcDecl false false, .typeCtx (.module false), 1⟩,
              [.plain, .tuple [some false, none, some true]], true, true, false⟩) 0
          ++ [.emitted (mainFunctionRef
                (.valueDecl ⟨3, .funcDecl false false, .typeCtx (.module false), 1⟩)
                (DeclLoc.naturalUncurryLevel
                  (.valueDecl ⟨3, .funcDecl false false, .typeCtx (.module false), 1⟩))) true]
          ++ rest :=
  (emitFunction_default_arg_generators ⟨[], 0⟩
    (.valueDecl ⟨3, .funcDecl false false, .typeCtx (.module false), 1⟩)
    ⟨some ⟨3, .funcDecl false false, .typeCtx (.module false), 1⟩,
      [.plain, .tuple [some false, none, some true]], true, true, false⟩
    ⟨[(⟨.valueDecl ⟨3, .funcDecl false false, .typeCtx (.module false), 1⟩, .func, 0, false⟩, ⟨3, .external, true⟩),
      (⟨.valueDecl ⟨3, .funcDecl false false, .typeCtx (.module false), 1⟩, .func, 1, false⟩, ⟨2, .external, true⟩),
      (defaultArgGeneratorRef (.valueDecl ⟨3, .funcDecl false false, .typeCtx (.module false), 1⟩) 2, ⟨1, .external, true⟩),
      (defaultArgGeneratorRef (.valueDecl ⟨3, .funcDecl false false, .typeCtx (.module false), 1⟩) 0, ⟨0, .external, true⟩)], 4⟩
    [Event.emitted (defaultArgGeneratorRef
        (.valueDecl ⟨3, .funcDecl false false, .typeCtx (.module false), 1⟩) 0) false,
     Event.emitted (defaultArgGeneratorRef
        (.valueDecl ⟨3, .funcDecl false false, .typeCtx (.module false), 1⟩) 2) true,
     Event.emitted ⟨.valueDecl ⟨3, .funcDecl false false, .typeCtx (.module false), 1⟩, .func, 1, false⟩ true,
     Event.thunk ⟨.valueDecl ⟨3, .funcDecl false false, .typeCtx (.module false), 1⟩, .func, 0, false⟩
       ⟨.valueDecl ⟨3, .funcDecl false false, .typeCtx (.module false), 1⟩, .func, 1, false⟩]
    (by decide)).2 rfl

/-!
## emitConstructor (claim C2)
-/

/-- The attributes of a ConstructorDecl consulted by
SILGenModule::emitConstructor: its declaration, whether the implicit this
type is a class or bound generic class, and its argument patterns. -/
structure ConstructorDecl where
  info : ValueDeclInfo
  isClassContext : Bool
  arguments : List Pattern
deriving DecidableEq

/-- SILDeclRef constant(decl): the constructor's allocating entry point. -/
def constructorRef (cd : ConstructorDecl) : SILDeclRef :=
  ⟨.valueDecl cd.info, .func, cd.info.naturalUncurryLevel, false⟩

/-- SILDeclRef(decl, Kind::Initializer): the initializing entry point. -/
def constructorInitRef (cd : ConstructorDecl) : SILDeclRef :=
  ⟨.valueDecl cd.info, .initializer, cd.info.naturalUncurryLevel, false⟩

/-- SILGenModule::emitConstructor: emit default-argument generators for the
parameter list first; a class constructor then emits two functions under
two distinct references (the allocating and the initializing entry points,
each SILGenFunction constructed with hasVoidReturn = true), a value-type
constructor a single function (also hasVoidReturn = true). -/
def emitConstructor (s : SGMState) (cd : ConstructorDecl) :
    Option (SGMState × List Event) :=
  (emitDefaultArgGenerators s (.valueDecl cd.info) cd.arguments).bind fun pg =>
    (preEmitFunction pg.1 (constructorRef cd)).bind fun s2 =>
      if cd.isClassContext then
        (preEmitFunction (markBody s2 (constructorRef cd))
            (constructorInitRef cd)).map fun s4 =>
          (markBody s4 (constructorInitRef cd),
            pg.2 ++ [.emitted (constructorRef cd) true,
                     .emitted (constructorInitRef cd) true])
      else
        some (markBody s2 (constructorRef cd),
          pg.2 ++ [.emitted (constructorRef cd) true])

/-- Claim C2: emitting a constructor produces exactly two functions when
the owning type is a class — an allocator and an initializer under two
distinct references, both with hasVoidReturn = true — and exactly one when
it is a value type; the default-argument generators for the parameter list
come first in the trace. -/
theorem emitConstructor_functions (s : SGMState) (cd : ConstructorDecl)
    (s' : SGMState) (tr : List Event)
    (h : emitConstructor s cd = some (s', tr)) :
    constructorRef cd ≠ constructorInitRef cd
    ∧ (∀ e ∈ claimedGenerators (.valueDecl cd.info) cd.arguments 0,
        e.isDefaultArgGen = true)
    ∧ tr = claimedGenerators (.valueDecl cd.info) cd.arguments 0 ++
        (if cd.isClassContext then
          [.emitted (constructorRef cd) true, .emitted (constructorInitRef cd) true]
        else [.emitted (constructorRef cd) true]) := by
  refine ⟨by simp [constructorRef, constructorInitRef],
    claimedGenerators_isDefaultArgGen _ _ _, ?_⟩
  unfold emitConstructor at h
  cases h1 : emitDefaultArgGenerators s (.valueDecl cd.info) cd.arguments with
  | none => rw [h1] at h; exact absurd h (by simp)
  | some pg =>
    obtain ⟨s1, gtr⟩ := pg
    rw [h1, Option.some_bind] at h
    dsimp only at h
    have hgen := emitDefaultArgGenerators_eq s (.valueDecl cd.info) cd.arguments s1 gtr h1
    subst hgen
    cases h2 : preEmitFunction s1 (constructorRef cd) with
    | none => rw [h2] at h; exact absurd h (by simp)
    | some s2 =>
      rw [h2, Option.some_bind] at h
      by_cases hclass : cd.isClassContext = true
      · rw [hclass] at h
        simp only [if_true] at h
        cases h3 : preEmitFunction (markBody s2 (constructorRef cd))
            (constructorInitRef cd) with
        | none => rw [h3] at h; exact absurd h (by simp)
        | some s4 =>
          rw [h3, Option.map_some'] at h
          simp only [Option.some.injEq, Prod.mk.injEq] at h
          rw [hclass, if_pos rfl]
          exact h.2.symm
      · simp only [Bool.not_eq_true] at hclass
        rw [hclass] at h
        simp only [Bool.false_eq_true, if_false] at h
        simp only [Option.some.injEq, Prod.mk.injEq] at h
        rw [hclass]
        simp only [Bool.false_eq_true, if_false]
        exact h.2.symm

/-- Witness for C2: a class constructor whose second argument has a default
value produces three functions in order — the default-argument generator,
the allocator, and the initializer, the latter two under distinct
references with hasVoidReturn = true. -/
theorem emitConstructor_functions_witness :
    constructorRef ⟨⟨1, .constructor, .module false, 1⟩, true, [.tuple [none, some false]]⟩
      ≠ constructorInitRef ⟨⟨1, .constructor, .module false, 1⟩, true, [.tuple [none, some false]]⟩
    ∧ (∀ e ∈ claimedGenerators (.valueDecl ⟨1, .constructor, .module false, 1⟩)
          [.tuple [none, some false]] 0, e.isDefaultArgGen = true)
    ∧ [Event.emitted (defaultArgGeneratorRef (.valueDecl ⟨1, .constructor, .module false, 1⟩) 1) false,
       Event.emitted (constructorRef ⟨⟨1, .constructor, .module false, 1⟩, true, [.tuple [none, some false]]⟩) true,
       Event.emitted (constructorInitRef ⟨⟨1, .constructor, .module false, 1⟩, true, [.tuple [none, some false]]⟩) true]
        = claimedGenerators (.valueDecl ⟨1, .constructor, .module false, 1⟩)
            [.tuple [none, some false]] 0 ++
          (if (true : Bool) then
            [.emitted (constructorRef ⟨⟨1, .constructor, .module false, 1⟩, true, [.tuple [none, some false]]⟩) true,
             .emitted (constructorInitRef ⟨⟨1, .constructor, .module false, 1⟩, true, [.tuple [none, some false]]⟩) true]
          else [.emitted (constructorRef ⟨⟨1, .constructor, .module false, 1⟩, true, [.tuple [none, some false]]⟩) true]) :=
  emitConstructor_functions ⟨[], 0⟩
    ⟨⟨1, .constructor, .module false, 1⟩, true, [.tuple [none, some false]]⟩
    ⟨[(constructorInitRef ⟨⟨1, .constructor, .module false, 1⟩, true, [.tuple [none, some false]]⟩, ⟨2, .external, true⟩),
      (constructorRef ⟨⟨1, .constructor, .module false, 1⟩, true, [.tuple [none, some false]]⟩, ⟨1, .external, true⟩),
      (defaultArgGeneratorRef (.valueDecl ⟨1, .constructor, .module false, 1⟩) 1, ⟨0, .external, true⟩)], 3⟩
    [Event.emitted (defaultArgGeneratorRef (.valueDecl ⟨1, .constructor, .module false, 1⟩) 1) false,
     Event.emitted (constructorRef ⟨⟨1, .constructor, .module false, 1⟩, true, [.tuple [none, some false]]⟩) true,
     Event.emitted (constructorInitRef ⟨⟨1, .constructor, .module false, 1⟩, true, [.tuple [none, some false]]⟩) true]
    (by decide)

/-!
## Top-level pattern bindings (claim C8)
-/

/-- A top-level pattern binding as visitPatternBindingDecl consumes it: its
identity and whether emitting its initializer ends in a terminator that
invalidates the top-level insertion point. -/
structure PatternBindingDecl where
  id : Nat
  endsWithTerminator : Bool
deriving DecidableEq

/-- The top-level SILGenFunction state the module driver observes: the
builder's insertion-point validity and the initializers emitted so far, in
order. -/
structure TopLevelState where
  validInsertionPoint : Bool
  emittedInits : List Nat
deriving DecidableEq

/-- SILGenModule::visitPatternBindingDecl: emit the initializer into the
implicit top-level function only while its insertion point is still valid,
returning silently (no diagnostic, no state change) otherwise. Within an
emission session TopLevelSGF is always non-null, so the null guard is not
modelled; emitting an initializer whose code ends in a terminator
invalidates the insertion point. -/
def visitPatternBindingDecl (t : TopLevelState) (pd : PatternBindingDecl) :
    TopLevelState :=
  if !t.validInsertionPoint then t
  else ⟨!pd.endsWithTerminator, t.emittedInits ++ [pd.id]⟩

/-- Claim C8: a top-level initializer is emitted into the top-level entry
function iff the insertion point is valid at the time of its visit, and
once the insertion point is invalid every subsequent visit silently leaves
the state unchanged. -/
theorem visitPatternBindingDecl_gating (t : TopLevelState)
    (pd : PatternBindingDecl) (pds : List PatternBindingDecl) :
    ((visitPatternBindingDecl t pd).emittedInits = t.emittedInits ++ [pd.id]
      ↔ t.validInsertionPoint = true)
    ∧ (t.validInsertionPoint = false →
        pds.foldl visitPatternBindingDecl t = t) := by
  constructor
  · constructor
    · intro h
      by_contra hv
      simp only [Bool.not_eq_true] at hv
      rw [visitPatternBindingDecl, hv] at h
      simp only [Bool.not_false, if_true] at h
      have := congrArg List.length h
      simp at this
    · intro hv
      rw [visitPatternBindingDecl, hv]
      simp
  · intro hv
    induction pds with
    | nil => rfl
    | cons pd1 rest ih =>
      have hstep : visitPatternBindingDecl t pd1 = t := by
        rw [visitPatternBindingDecl, hv]
        simp
      simp only [List.foldl_cons, hstep]
      exact ih

/-- Witness for C8: after a binding whose initializer ends in a terminator,
the insertion point is invalid and two later bindings are silently not
emitted. -/
theorem visitPatternBindingDecl_gating_witness :
    (visitPatternBindingDecl ⟨true, []⟩ ⟨0, true⟩).emittedInits = [0]
    ∧ [PatternBindingDecl.mk 1 false, PatternBindingDecl.mk 2 false].foldl
        visitPatternBindingDecl (visitPatternBindingDecl ⟨true, []⟩ ⟨0, true⟩)
      = visitPatternBindingDecl ⟨true, []⟩ ⟨0, true⟩ :=
  ⟨(visitPatternBindingDecl_gating ⟨true, []⟩ ⟨0, true⟩ []).1.mpr rfl,
   (visitPatternBindingDecl_gating (visitPatternBindingDecl ⟨true, []⟩ ⟨0, true⟩)
      ⟨1, false⟩ [⟨1, false⟩, ⟨2, false⟩]).2 rfl⟩

/-!
## ObjC property thunks (claim C9)
-/

theorem lookupFn_getFunction_other (s : SGMState) (c c' : SILDeclRef)
    (h : c' ≠ c) :
    lookupFn ((getFunction s c).2).cache c' = lookupFn s.cache c' := by
  unfold getFunction
  cases hl : lookupFn s.cache c with
  | some f => simp
  | none =>
    simp only [lookupFn]
    rw [if_neg fun hh => h hh.symm]

theorem emitOneFunction_fresh (s : SGMState) (c : SILDeclRef) (hvr : Bool)
    (h : lookupFn s.cache c = none) :
    emitOneFunction s c hvr
      = some (markBody (getFunction s c).2 c, .emitted c hvr) := by
  have hb : ((getFunction s c).1).hasBody = false := by
    simp [getFunction, h]
  simp [emitOneFunction, preEmitFunction, hb]

theorem emitOneFunction_bodiless (s : SGMState) (c : SILDeclRef)
    (f : SILFunction) (hl : lookupFn s.cache c = some f)
    (hb : f.hasBody = false) (hvr : Bool) :
    emitOneFunction s c hvr = some (markBody s c, .emitted c hvr) := by
  have hg := getFunction_of_lookup s c f hl
  simp [emitOneFunction, preEmitFunction, hg, hb]

/-- The attributes of a VarDecl consulted by
SILGenModule::emitObjCPropertyMethodThunks. -/
structure ObjCPropertyDecl where
  info : ValueDeclInfo
  isSettable : Bool
deriving DecidableEq

/-- The getter thunk reference: Kind::Getter at the natural uncurry level
with the isObjC flag set. -/
def objcGetterRef (p : ObjCPropertyDecl) : SILDeclRef :=
  ⟨.valueDecl p.info, .getter, p.info.naturalUncurryLevel, true⟩

/-- The setter thunk reference: Kind::Setter at the natural uncurry level
with the isObjC flag set. -/
def objcSetterRef (p : ObjCPropertyDecl) : SILDeclRef :=
  ⟨.valueDecl p.info, .setter, p.info.naturalUncurryLevel, true⟩

/-- SILGenModule::emitObjCPropertyMethodThunks: the existence check is
performed against the getter reference only; past it the getter thunk is
emitted, and the setter thunk follows iff the property is settable (the
SILGenFunctions are constructed with hasVoidReturn = false). -/
def emitObjCPropertyMethodThunks (s : SGMState) (p : ObjCPropertyDecl) :
    Option (SGMState × List Event) :=
  if hasFunction s (objcGetterRef p) then some (s, [])
  else
    (emitOneFunction s (objcGetterRef p) false).bind fun pg =>
      if !p.isSettable then some (pg.1, [pg.2])
      else
        (emitOneFunction pg.1 (objcSetterRef p) false).map fun ps =>
          (ps.1, [pg.2, ps.2])

/-- Claim C9: from any state whose setter-reference cache entry (if any) is
bodiless, emitObjCPropertyMethodThunks succeeds and emits the setter thunk
iff no function is cached for the getter thunk's reference and the property
is settable — the guard is the getter's reference only, never the
setter's own. -/
theorem objc_property_setter_guard (s : SGMState) (p : ObjCPropertyDecl)
    (hset : (lookupFn s.cache (objcSetterRef p)).all (fun f => !f.hasBody) = true) :
    ∃ s' tr, emitObjCPropertyMethodThunks s p = some (s', tr)
      ∧ ((Event.emitted (objcSetterRef p) false) ∈ tr
          ↔ (hasFunction s (objcGetterRef p) = false ∧ p.isSettable = true)) := by
  have hrefs : objcGetterRef p ≠ objcSetterRef p := by
    simp [objcGetterRef, objcSetterRef]
  unfold emitObjCPropertyMethodThunks
  by_cases hmem : hasFunction s (objcGetterRef p) = true
  · rw [hmem]
    simp only [if_true]
    exact ⟨s, [], rfl, by simp [hmem]⟩
  · simp only [Bool.not_eq_true] at hmem
    rw [hmem]
    simp only [Bool.false_eq_true, if_false]
    have hgetter : lookupFn s.cache (objcGetterRef p) = none := by
      have := hmem
      unfold hasFunction at this
      exact Option.not_isSome_iff_eq_none.mp (by simp [this])
    rw [emitOneFunction_fresh s (objcGetterRef p) false hgetter, Option.some_bind]
    dsimp only
    by_cases hsettable : p.isSettable = true
    · rw [hsettable]
      simp only [Bool.not_true, Bool.false_eq_true, if_false]
      have hsetlookup :
          lookupFn (markBody (getFunction s (objcGetterRef p)).2 (objcGetterRef p)).cache
              (objcSetterRef p)
            = lookupFn s.cache (objcSetterRef p) := by
        rw [lookupFn_markBody, if_neg (fun hh => hrefs hh.symm),
          lookupFn_getFunction_other s (objcGetterRef p) (objcSetterRef p)
            (fun hh => hrefs hh.symm)]
      cases hsl : lookupFn s.cache (objcSetterRef p) with
      | none =>
        rw [emitOneFunction_fresh _ (objcSetterRef p) false (by rw [hsetlookup, hsl]),
          Option.map_some']
        refine ⟨_, _, rfl, ?_⟩
        simp [hmem, hsettable]
      | some f =>
        have hfb : f.hasBody = false := by
          rw [hsl] at hset
          simpa using hset
        rw [emitOneFunction_bodiless _ (objcSetterRef p) f (by rw [hsetlookup, hsl]) hfb false,
          Option.map_some']
        refine ⟨_, _, rfl, ?_⟩
        simp [hmem, hsettable]
    · simp only [Bool.not_eq_true] at hsettable
      rw [hsettable]
      simp only [Bool.not_false, if_true]
      refine ⟨_, _, rfl, ?_⟩
      simp only [List.mem_singleton, hsettable]
      constructor
      · intro hev
        exact absurd hev (by simp [hrefs, Event.emitted.injEq]; intro hh; exact hrefs hh.symm)
      · rintro ⟨-, hfalse⟩
        exact absurd hfalse (by simp)

/-- Witness for C9: with the setter reference already cached (bodiless) but
the getter reference absent and the property settable, the setter thunk is
still emitted — the guard consults only the getter's reference. -/
theorem objc_property_setter_guard_witness :
    ∃ s' tr, emitObjCPropertyMethodThunks
        ⟨[(objcSetterRef ⟨⟨5, .varDecl true, .module true, 1⟩, true⟩, ⟨0, .clangThunk, false⟩)], 1⟩
        ⟨⟨5, .varDecl true, .module true, 1⟩, true⟩ = some (s', tr)
      ∧ ((Event.emitted (objcSetterRef ⟨⟨5, .varDecl true, .module true, 1⟩, true⟩) false) ∈ tr
          ↔ (hasFunction
              ⟨[(objcSetterRef ⟨⟨5, .varDecl true, .module true, 1⟩, true⟩, ⟨0, .clangThunk, false⟩)], 1⟩
              (objcGetterRef ⟨⟨5, .varDecl true, .module true, 1⟩, true⟩) = false
            ∧ (true : Bool) = true)) :=
  objc_property_setter_guard
    ⟨[(objcSetterRef ⟨⟨5, .varDecl true, .module true, 1⟩, true⟩, ⟨0, .clangThunk, false⟩)], 1⟩
    ⟨⟨5, .varDecl true, .module true, 1⟩, true⟩ (by decide)

end SILGen
